import Mathlib

set_option maxRecDepth 100000

/-!
Shallow embedding of the Moose Jaw Transit Guide itinerary-search engine
(`src/mj_transit_guide_front/src/App.tsx`) and proofs about it.

Modelling conventions:
* JavaScript numbers used for time arithmetic are modelled as `ℚ`
  (`timeToMinutes` produces fractional minutes via `seconds / 60`).
* Geographic coordinates are modelled as `ℚ`; the real-valued
  `haversineDistanceKm` (which uses `sin`, `cos`, `asin`, `sqrt` on
  floating-point numbers) is modelled as an abstract distance function
  parameter `dist : Stop → Coord → ℚ`, so every theorem quantifying over
  `dist` in particular covers the haversine distance.
* `Map` lookups (`stopById`, `routeById`, `stopTimesByTrip`) are modelled as
  functions into `Option`; a `none` result corresponds to the lookup miss
  that the source code treats as a skip condition.
* `Array.prototype.sort` with a numeric comparator is a stable sort in
  JavaScript; it is modelled by `List.insertionSort` with the corresponding
  non-strict total preorder, which is also stable and therefore produces the
  same list.
* `value.split(':')` is modelled by `splitCols` on the string's character
  list, and `Number(part)` is modelled on the domain the claims are about:
  a string of decimal digits parses to its value (`Number("") = 0`), any
  other component is treated as NaN (`none`); `Number(part) || 0` then
  coerces the NaN/0 cases to `0`.
-/

namespace MJTransit

/-- Geographic coordinate, as produced by the geocoder (`{lat, lng}`). -/
structure Coord where
  lat : ℚ
  lng : ℚ
deriving DecidableEq

/-- GTFS stop row (`type Stop` in App.tsx). -/
structure Stop where
  stop_id : String
  stop_code : String
  stop_name : String
  stop_lat : ℚ
  stop_lon : ℚ
deriving DecidableEq

/-- GTFS stop-time row (`type StopTime` in App.tsx). -/
structure StopTime where
  trip_id : String
  arrival_time : String
  departure_time : String
  stop_id : String
  stop_sequence : Int
deriving DecidableEq

/-- GTFS trip row (`type Trip` in App.tsx). -/
structure Trip where
  trip_id : String
  route_id : String
  trip_headsign : String
  trip_short_name : String
deriving DecidableEq

/-- GTFS route row (`type Route` in App.tsx). -/
structure Route where
  route_id : String
  route_short_name : String
  route_long_name : String
deriving DecidableEq

/-- One feasible single-trip leg (`type CandidateTrip` in App.tsx). -/
structure CandidateTrip where
  trip : Trip
  route : Option Route
  boardStop : Stop
  alightStop : Stop
  boardTime : String
  alightTime : String
  boardSequence : Int
  alightSequence : Int
deriving DecidableEq

/-- One-transfer itinerary (`type TransferPlan` in App.tsx). -/
structure TransferPlan where
  firstLeg : CandidateTrip
  secondLeg : CandidateTrip
  transferStop : Stop
  layoverMinutes : ℚ
  totalMinutes : ℚ
deriving DecidableEq

/-- Tagged result of the planner (`planResult` returns one of three shapes,
discriminated by `kind`). -/
inductive PlanResult where
  | error (message : String)
  | direct (nextTrip : CandidateTrip) (alternatives : List CandidateTrip)
      (serviceNote : Option String)
  | transfer (nextTransfer : TransferPlan) (alternatives : List TransferPlan)
      (serviceNote : Option String)
deriving DecidableEq

/-- Model of JavaScript `value.split(':')` on the character list of the
string: colon-separated components, empty components preserved,
`splitCols [] = [[]]` just as `"".split(':') == [""]`. -/
def splitCols : List Char → List (List Char)
  | [] => [[]]
  | c :: cs =>
    if c = ':' then [] :: splitCols cs
    else
      match splitCols cs with
      | [] => [[c]]
      | p :: ps => (c :: p) :: ps

/-- Decimal value of a digit string. -/
def digitsVal (cs : List Char) : Nat :=
  cs.foldl (fun acc c => acc * 10 + (c.toNat - '0'.toNat)) 0

/-- Model of JavaScript `Number(part)` restricted to the claim-relevant
domain: `none` stands for NaN (a missing component, i.e. `undefined`, or a
component containing a non-digit character); a string of digits parses to
its decimal value, and the empty string parses to `0` as `Number("")`
does. -/
def jsNum : Option (List Char) → Option Nat
  | none => none
  | some cs => if cs.all (fun c => c.isDigit) then some (digitsVal cs) else none

/-- Model of `Number(part) || 0`: NaN (and `0` itself) coerces to `0`. -/
def jsNumberOr0 (p : Option (List Char)) : Nat :=
  (jsNum p).getD 0

/-- Embedding of `timeToMinutes` (App.tsx lines 139-142):
`const [hours, minutes, seconds] = value.split(':').map(p => Number(p) || 0);
return hours * 60 + minutes + seconds / 60`. -/
def timeToMinutes (value : String) : ℚ :=
  let parts := splitCols value.data
  let hours := jsNumberOr0 parts[0]?
  let minutes := jsNumberOr0 parts[1]?
  let seconds := jsNumberOr0 parts[2]?
  (hours : ℚ) * 60 + (minutes : ℚ) + (seconds : ℚ) / 60

/-- Embedding of `minutesBetween` (App.tsx line 172). -/
def minutesBetween (start finish : String) : ℚ :=
  timeToMinutes finish - timeToMinutes start

/-- Model of `String(n).padStart(2, '0')` for a natural number. -/
def pad2 (n : Nat) : String :=
  if n < 10 then "0" ++ toString n else toString n

/-- Embedding of `formatTime` (App.tsx lines 160-171): splits off the hour
and minute components, returns the input unchanged when either is NaN
(`!Number.isFinite`), otherwise wraps the hours with `((h % 24) + 24) % 24`
and renders a 12-hour clock string. -/
def formatTime (value : String) : String :=
  let parts := splitCols value.data
  match jsNum parts[0]?, jsNum parts[1]? with
  | some hoursTotal, some minutes =>
    let hours24 := ((hoursTotal % 24) + 24) % 24
    let period := if hours24 ≥ 12 then "PM" else "AM"
    let hours12 := if hours24 % 12 = 0 then 12 else hours24 % 12
    toString hours12 ++ ":" ++ pad2 minutes ++ " " ++ period
  | _, _ => value

/-- Map lookup built from an association list, modelling `new Map(entries)`:
for a duplicated key the last entry wins. -/
def mapOf {α : Type} (entries : List (String × α)) (key : String) : Option α :=
  (entries.reverse.find? fun e => e.1 == key).map Prod.snd

/-- Embedding of the `directReachable` pass of `buildEligibleStopIds`
(App.tsx lines 304-313): for every trip whose stop-time list contains the
destination at a positive first index, every stop id strictly before that
index is collected. -/
def directReachableIds (destination : Stop) (trips : List Trip)
    (stopTimesByTrip : String → Option (List StopTime)) : List String :=
  trips.flatMap fun trip =>
    match stopTimesByTrip trip.trip_id with
    | none => []
    | some stopTimes =>
      match stopTimes.findIdx? (fun time => time.stop_id == destination.stop_id) with
      | none => []
      | some destIndex =>
        if destIndex = 0 then []
        else (stopTimes.take destIndex).map (fun time => time.stop_id)

/-- Embedding of the `transferReachable` pass of `buildEligibleStopIds`
(App.tsx lines 315-328): only when the direct set is non-empty, for every
stop-time whose stop is directly reachable, every stop id strictly before
it in the same trip is collected. -/
def transferReachableIds (directReachable : List String) (trips : List Trip)
    (stopTimesByTrip : String → Option (List StopTime)) : List String :=
  if directReachable.isEmpty then []
  else
    trips.flatMap fun trip =>
      match stopTimesByTrip trip.trip_id with
      | none => []
      | some stopTimes =>
        stopTimes.enum.flatMap fun p =>
          if directReachable.contains p.2.stop_id then
            (stopTimes.take p.1).map (fun time => time.stop_id)
          else []

/-- Embedding of `buildEligibleStopIds` (App.tsx lines 299-331); the
returned `Set` is modelled as a list whose membership is the set
membership. -/
def buildEligibleStopIds (destination : Stop) (trips : List Trip)
    (stopTimesByTrip : String → Option (List StopTime)) : List String :=
  let direct := directReachableIds destination trips stopTimesByTrip
  direct ++ transferReachableIds direct trips stopTimesByTrip

/-- Result cell of `pickClosestStopAfterBoard`. -/
structure ClosestPick where
  stopTime : StopTime
  stop : Stop
  distanceKm : ℚ
deriving DecidableEq

/-- Embedding of `pickClosestStopAfterBoard` (App.tsx lines 753-777):
returns `none` when no destination coordinate was supplied, otherwise scans
the stop-times strictly after `boardIndex`, skips those whose arrival is
not strictly after the boarding departure and those whose stop id does not
resolve, and keeps the first stop of minimal distance to the destination
coordinate.  The source's `haversineDistanceKm(stop, lat, lng)` is the
`dist` parameter. -/
def pickClosestStopAfterBoard (stopById : String → Option Stop)
    (destinationLocation : Option Coord) (dist : Stop → Coord → ℚ)
    (stopTimes : List StopTime) (boardIndex : Nat) (boardMinutes : ℚ) :
    Option ClosestPick :=
  match destinationLocation with
  | none => none
  | some loc =>
    (stopTimes.drop (boardIndex + 1)).foldl
      (fun closest stopTime =>
        if timeToMinutes stopTime.arrival_time ≤ boardMinutes then closest
        else
          match stopById stopTime.stop_id with
          | none => closest
          | some stop =>
            let distanceKm := dist stop loc
            match closest with
            | none => some ⟨stopTime, stop, distanceKm⟩
            | some c =>
              if distanceKm < c.distanceKm then some ⟨stopTime, stop, distanceKm⟩
              else some c)
      none

/-- Embedding of the per-trip body of the Step-1 direct-candidate loop
(App.tsx lines 780-823).  The source finds `boardIndex` via `findIndex`, the
exact destination match via `findIndex` restricted to indices after
`boardIndex` (modelled as `find?` on the dropped suffix, which returns the
same stop-time), falls back to `pickClosestStopAfterBoard` when the exact
match is missing, fails its arrival-time guard, or its stop id does not
resolve, and finally rejects candidates whose boarding sequence is not
strictly below the alighting sequence. -/
def directCandidateForTrip (origin destination : Stop)
    (stopById : String → Option Stop) (routeById : String → Option Route)
    (destinationLocation : Option Coord) (dist : Stop → Coord → ℚ)
    (trip : Trip) (stopTimes : List StopTime) : Option CandidateTrip :=
  match stopTimes.findIdx? (fun time => time.stop_id == origin.stop_id) with
  | none => none
  | some boardIndex =>
    match stopTimes[boardIndex]? with
    | none => none
    | some boardTime =>
      let exactPick : Option (StopTime × Option Stop) :=
        match (stopTimes.drop (boardIndex + 1)).find?
            (fun time => time.stop_id == destination.stop_id) with
        | none => none
        | some candidate =>
          if timeToMinutes boardTime.departure_time < timeToMinutes candidate.arrival_time
          then some (candidate, stopById candidate.stop_id)
          else none
      let pick : Option (StopTime × Stop) :=
        match exactPick with
        | some (alightTime, some alightStop) => some (alightTime, alightStop)
        | _ =>
          match pickClosestStopAfterBoard stopById destinationLocation dist stopTimes
              boardIndex (timeToMinutes boardTime.departure_time) with
          | some closest => some (closest.stopTime, closest.stop)
          | none => none
      match pick with
      | none => none
      | some (alightTime, alightStop) =>
        if alightTime.stop_sequence ≤ boardTime.stop_sequence then none
        else
          match stopById boardTime.stop_id with
          | none => none
          | some boardStop =>
            some {
              trip := trip
              route := routeById trip.route_id
              boardStop := boardStop
              alightStop := alightStop
              boardTime := boardTime.departure_time
              alightTime := alightTime.arrival_time
              boardSequence := boardTime.stop_sequence
              alightSequence := alightTime.stop_sequence }

/-- Step 1 of `planResult`: one optional `CandidateTrip` per trip, in trip
order (App.tsx lines 779-823). -/
def directCandidates (origin destination : Stop) (trips : List Trip)
    (stopTimesByTrip : String → Option (List StopTime))
    (stopById : String → Option Stop) (routeById : String → Option Route)
    (destinationLocation : Option Coord) (dist : Stop → Coord → ℚ) :
    List CandidateTrip :=
  trips.filterMap fun trip =>
    match stopTimesByTrip trip.trip_id with
    | none => none
    | some stopTimes =>
      directCandidateForTrip origin destination stopById routeById
        destinationLocation dist trip stopTimes

/-- Embedding of `createLeg` (App.tsx lines 846-864). -/
def createLeg (stopById : String → Option Stop) (routeById : String → Option Route)
    (trip : Trip) (boardTime alightTime : StopTime) : Option CandidateTrip :=
  match stopById boardTime.stop_id, stopById alightTime.stop_id with
  | some boardStop, some alightStop =>
    some {
      trip := trip
      route := routeById trip.route_id
      boardStop := boardStop
      alightStop := alightStop
      boardTime := boardTime.departure_time
      alightTime := alightTime.arrival_time
      boardSequence := boardTime.stop_sequence
      alightSequence := alightTime.stop_sequence }
  | _, _ => none

/-- Embedding of the `leg2ByStop` construction (App.tsx lines 866-881), kept
as the flat list of `(boarding stop id, second leg)` pairs in push order;
`leg2ByStop` below recovers the per-stop bucket. -/
def secondLegsWithKeys (destination : Stop) (trips : List Trip)
    (stopTimesByTrip : String → Option (List StopTime))
    (stopById : String → Option Stop) (routeById : String → Option Route) :
    List (String × CandidateTrip) :=
  trips.flatMap fun trip =>
    match stopTimesByTrip trip.trip_id with
    | none => []
    | some stopTimes =>
      match stopTimes.findIdx? (fun time => time.stop_id == destination.stop_id) with
      | none => []
      | some destIndex =>
        if destIndex = 0 then []
        else
          match stopTimes[destIndex]? with
          | none => []
          | some alightTime =>
            (stopTimes.take destIndex).filterMap fun boardTime =>
              match createLeg stopById routeById trip boardTime alightTime with
              | none => none
              | some leg2 => some (boardTime.stop_id, leg2)

/-- Bucket of `leg2ByStop` for one stop id: the second legs pushed under
that key, in push order (a `Map` bucket lookup). -/
def leg2ByStop (destination : Stop) (trips : List Trip)
    (stopTimesByTrip : String → Option (List StopTime))
    (stopById : String → Option Stop) (routeById : String → Option Route)
    (stopId : String) : List CandidateTrip :=
  (secondLegsWithKeys destination trips stopTimesByTrip stopById routeById).filterMap
    fun p => if p.1 = stopId then some p.2 else none

/-- Step 3b of `planResult` (App.tsx lines 883-910): join every feasible
first leg out of the origin against the precomputed second legs keyed by
the first leg's alighting stop, discarding pairings with a negative layover
or a negative total duration. -/
def transferPlansFor (origin destination : Stop) (trips : List Trip)
    (stopTimesByTrip : String → Option (List StopTime))
    (stopById : String → Option Stop) (routeById : String → Option Route) :
    List TransferPlan :=
  trips.flatMap fun trip =>
    match stopTimesByTrip trip.trip_id with
    | none => []
    | some stopTimes =>
      match stopTimes.findIdx? (fun time => time.stop_id == origin.stop_id) with
      | none => []
      | some originIndex =>
        if stopTimes.length ≤ originIndex + 1 then []
        else
          match stopTimes[originIndex]? with
          | none => []
          | some boardTime =>
            (stopTimes.drop (originIndex + 1)).flatMap fun alightTime =>
              match createLeg stopById routeById trip boardTime alightTime with
              | none => []
              | some leg1 =>
                (leg2ByStop destination trips stopTimesByTrip stopById routeById
                    alightTime.stop_id).filterMap fun leg2 =>
                  let layover := minutesBetween leg1.alightTime leg2.boardTime
                  if layover < 0 then none
                  else
                    let totalMinutes := minutesBetween leg1.boardTime leg2.alightTime
                    if totalMinutes < 0 then none
                    else some {
                      firstLeg := leg1
                      secondLeg := leg2
                      transferStop := leg1.alightStop
                      layoverMinutes := layover
                      totalMinutes := totalMinutes }

/-- Comparator of the direct sort (App.tsx lines 825-827), as the
corresponding non-strict total preorder on candidates. -/
def candLE (a b : CandidateTrip) : Prop :=
  timeToMinutes a.boardTime ≤ timeToMinutes b.boardTime

instance : DecidableRel candLE := fun a b =>
  inferInstanceAs (Decidable (timeToMinutes a.boardTime ≤ timeToMinutes b.boardTime))

instance : IsTotal CandidateTrip candLE :=
  ⟨fun a b => le_total (timeToMinutes a.boardTime) (timeToMinutes b.boardTime)⟩

instance : IsTrans CandidateTrip candLE :=
  ⟨fun _ _ _ hab hbc => le_trans hab hbc⟩

/-- Comparator of the transfer sort (App.tsx lines 916-920): ascending
first-leg boarding time, ties broken by ascending total duration, as the
corresponding non-strict total preorder. -/
def transferLE (a b : TransferPlan) : Prop :=
  timeToMinutes a.firstLeg.boardTime < timeToMinutes b.firstLeg.boardTime ∨
    (timeToMinutes a.firstLeg.boardTime = timeToMinutes b.firstLeg.boardTime ∧
      a.totalMinutes ≤ b.totalMinutes)

instance : DecidableRel transferLE := fun a b =>
  inferInstanceAs (Decidable
    (timeToMinutes a.firstLeg.boardTime < timeToMinutes b.firstLeg.boardTime ∨
      (timeToMinutes a.firstLeg.boardTime = timeToMinutes b.firstLeg.boardTime ∧
        a.totalMinutes ≤ b.totalMinutes)))

instance : IsTotal TransferPlan transferLE := by
  constructor
  intro a b
  rcases lt_trichotomy (timeToMinutes a.firstLeg.boardTime)
      (timeToMinutes b.firstLeg.boardTime) with h | h | h
  · exact Or.inl (Or.inl h)
  · rcases le_total a.totalMinutes b.totalMinutes with h' | h'
    · exact Or.inl (Or.inr ⟨h, h'⟩)
    · exact Or.inr (Or.inr ⟨h.symm, h'⟩)
  · exact Or.inr (Or.inl h)

instance : IsTrans TransferPlan transferLE := by
  constructor
  intro a b c hab hbc
  rcases hab with hab | ⟨hab, hab'⟩
  · rcases hbc with hbc | ⟨hbc, _⟩
    · exact Or.inl (lt_trans hab hbc)
    · exact Or.inl (hbc ▸ hab)
  · rcases hbc with hbc | ⟨hbc, hbc'⟩
    · exact Or.inl (hab ▸ hbc)
    · exact Or.inr ⟨hab.trans hbc, hab'.trans hbc'⟩

/-- Upcoming filter of Step 2 (App.tsx lines 829-831): candidates whose
boarding time is at least `nowMinutes`. -/
def upcomingDirect (nowMinutes : ℚ) (l : List CandidateTrip) : List CandidateTrip :=
  l.filter fun c => decide (nowMinutes ≤ timeToMinutes c.boardTime)

/-- Upcoming filter of Step 3e (App.tsx lines 921-923). -/
def upcomingTransfers (nowMinutes : ℚ) (l : List TransferPlan) : List TransferPlan :=
  l.filter fun p => decide (nowMinutes ≤ timeToMinutes p.firstLeg.boardTime)

/-- Embedding of `planResult` (App.tsx lines 746-945).  `JavaScript`'s
stable `Array.prototype.sort` is modelled by `List.insertionSort` with the
comparator's non-strict preorder; the final `.error` branch is unreachable
(the sorted list is a permutation of the non-empty `transferPlans`). -/
def planResult (origin destination : Stop) (nowMinutes : ℚ) (trips : List Trip)
    (stopTimesByTrip : String → Option (List StopTime))
    (stopById : String → Option Stop) (routeById : String → Option Route)
    (destinationLocation : Option Coord) (dist : Stop → Coord → ℚ) : PlanResult :=
  if origin.stop_id = destination.stop_id then
    .error "Pick two different stops to build a route."
  else
    let candidates := directCandidates origin destination trips stopTimesByTrip
      stopById routeById destinationLocation dist
    match List.insertionSort candLE candidates with
    | first :: rest =>
      match upcomingDirect nowMinutes (first :: rest) with
      | [] => .direct first rest
          (some "No more departures today. Showing the next available trip.")
      | next :: alts => .direct next alts none
    | [] =>
      let transferPlans := transferPlansFor origin destination trips
        stopTimesByTrip stopById routeById
      if transferPlans.isEmpty then .error "No trips found between those stops."
      else
        let sortedTransfers := List.insertionSort transferLE transferPlans
        match upcomingTransfers nowMinutes sortedTransfers with
        | next :: alts => .transfer next alts none
        | [] =>
          match sortedTransfers with
          | next :: alts => .transfer next alts
              (some "No more departures today. Showing the next available trip.")
          | [] => .error "No trips found between those stops."

/-- Fixture stop `A`. -/
def stopA : Stop := ⟨"A", "cA", "A Street", 0, 0⟩

/-- Fixture stop `T` (transfer point of the C1 scenario). -/
def stopT : Stop := ⟨"T", "cT", "T Street", 0, 0⟩

/-- Fixture stop `B`. -/
def stopB : Stop := ⟨"B", "cB", "B Street", 0, 0⟩

/-- Fixture stop `O` (origin of the single-trip scenarios). -/
def stopO : Stop := ⟨"O", "cO", "O Street", 0, 0⟩

/-- Fixture stop `M` (middle stop of the same-trip transfer scenario). -/
def stopM : Stop := ⟨"M", "cM", "M Street", 0, 0⟩

/-- Fixture stop `D` (destination of the single-trip scenarios). -/
def stopD : Stop := ⟨"D", "cD", "D Street", 0, 0⟩

/-- Fixture stop `X` (the proximity-fallback alighting stop). -/
def stopX : Stop := ⟨"X", "cX", "X Street", 0, 0⟩

/-- Fixture trip of the first leg of the spec's transfer example. -/
def trip1 : Trip := ⟨"t1", "r1", "eastbound", "1"⟩

/-- Fixture trip of the second leg of the spec's transfer example. -/
def trip2 : Trip := ⟨"t2", "r1", "westbound", "2"⟩

/-- Trip of the spec's transfer example: `A` (seq 1, dep 08:00) then `T`
(seq 2, arr 08:20). -/
def stopTimesT1 : List StopTime :=
  [⟨"t1", "08:00:00", "08:00:00", "A", 1⟩, ⟨"t1", "08:20:00", "08:20:00", "T", 2⟩]

/-- Trip of the spec's transfer example: `T` (seq 1, dep 08:30) then `B`
(seq 2, arr 08:45). -/
def stopTimesT2 : List StopTime :=
  [⟨"t2", "08:30:00", "08:30:00", "T", 1⟩, ⟨"t2", "08:45:00", "08:45:00", "B", 2⟩]

/-- Stop-time index of the C1 scenario. -/
def stopTimesByTrip12 : String → Option (List StopTime) :=
  mapOf [("t1", stopTimesT1), ("t2", stopTimesT2)]

/-- Stop index of the C1 scenario. -/
def stopById12 : String → Option Stop :=
  mapOf [("A", stopA), ("T", stopT), ("B", stopB)]

/-- Route index resolving nothing (a missing `routes.txt` entry is allowed
by the engine). -/
def routeByIdNone : String → Option Route := fun _ => none

/-- Constant distance function (the claims proved with it do not depend on
distance values). -/
def dist0 : Stop → Coord → ℚ := fun _ _ => 0

/-- Expected transfer itinerary of the C1 scenario. -/
def c1Plan : TransferPlan :=
  { firstLeg :=
      { trip := trip1, route := none, boardStop := stopA, alightStop := stopT
        boardTime := "08:00:00", alightTime := "08:20:00"
        boardSequence := 1, alightSequence := 2 }
    secondLeg :=
      { trip := trip2, route := none, boardStop := stopT, alightStop := stopB
        boardTime := "08:30:00", alightTime := "08:45:00"
        boardSequence := 1, alightSequence := 2 }
    transferStop := stopT
    layoverMinutes := 10
    totalMinutes := 45 }

/-- Single trip of the same-trip transfer scenario: `O` (seq 1, dep 08:00),
`M` (seq 2, arr 08:05 / dep 08:06), `D` (seq 3, arr 08:00).  The direct
candidate `O → D` is eliminated because the arrival at `D` is not strictly
after the boarding departure, so the engine falls through to the transfer
search. -/
def trip9 : Trip := ⟨"t9", "r1", "loop", "9"⟩

/-- Stop-times of `trip9`. -/
def stopTimesT9 : List StopTime :=
  [⟨"t9", "08:00:00", "08:00:00", "O", 1⟩, ⟨"t9", "08:05:00", "08:06:00", "M", 2⟩,
    ⟨"t9", "08:00:00", "08:00:00", "D", 3⟩]

/-- Stop-time index of the same-trip transfer scenario. -/
def stopTimesByTrip9 : String → Option (List StopTime) :=
  mapOf [("t9", stopTimesT9)]

/-- Stop index of the same-trip transfer scenario. -/
def stopById9 : String → Option Stop :=
  mapOf [("O", stopO), ("M", stopM), ("D", stopD)]

/-- Transfer itinerary returned in the same-trip transfer scenario: both
legs ride `trip9`. -/
def c9Plan : TransferPlan :=
  { firstLeg :=
      { trip := trip9, route := none, boardStop := stopO, alightStop := stopM
        boardTime := "08:00:00", alightTime := "08:05:00"
        boardSequence := 1, alightSequence := 2 }
    secondLeg :=
      { trip := trip9, route := none, boardStop := stopM, alightStop := stopD
        boardTime := "08:06:00", alightTime := "08:00:00"
        boardSequence := 2, alightSequence := 3 }
    transferStop := stopM
    layoverMinutes := 1
    totalMinutes := 0 }

/-- Trip of the proximity-fallback counterexample: `O` (seq 1, dep 08:00),
`D` (seq 2, arr 07:59 — an exact destination match that fails the
strictly-after arrival guard), `X` (seq 3, arr 08:10). -/
def trip3 : Trip := ⟨"t3", "r1", "counter", "3"⟩

/-- Stop-times of `trip3`. -/
def stopTimesT3 : List StopTime :=
  [⟨"t3", "08:00:00", "08:00:00", "O", 1⟩, ⟨"t3", "07:59:00", "07:59:00", "D", 2⟩,
    ⟨"t3", "08:10:00", "08:10:00", "X", 3⟩]

/-- Stop-time index of the proximity-fallback counterexample. -/
def stopTimesByTrip3 : String → Option (List StopTime) :=
  mapOf [("t3", stopTimesT3)]

/-- Stop index of the proximity-fallback counterexample. -/
def stopById3 : String → Option Stop :=
  mapOf [("O", stopO), ("D", stopD), ("X", stopX)]

/-- Candidate produced on `trip3` by the distance fallback: it alights at
`X`, not at the destination `D`. -/
def c3FallbackCand : CandidateTrip :=
  { trip := trip3, route := none, boardStop := stopO, alightStop := stopX
    boardTime := "08:00:00", alightTime := "08:10:00"
    boardSequence := 1, alightSequence := 3 }

/-- Exact-match candidate of the witness scenario (`trip1` from `A` to
`T`). -/
def c3ExactCand : CandidateTrip :=
  { trip := trip1, route := none, boardStop := stopA, alightStop := stopT
    boardTime := "08:00:00", alightTime := "08:20:00"
    boardSequence := 1, alightSequence := 2 }

/-- Formalization of the C5 claim's direct-reachability clause as written:
`s` lies strictly before *an occurrence* of the destination at index > 0 in
some trip's stop-time sequence. -/
def specDirectReachable (destination : Stop) (trips : List Trip)
    (stopTimesByTrip : String → Option (List StopTime)) (s : String) : Prop :=
  ∃ trip ∈ trips, ∃ stopTimes : List StopTime,
    stopTimesByTrip trip.trip_id = some stopTimes ∧
    ∃ (i : Nat) (sti : StopTime), stopTimes[i]? = some sti ∧
      sti.stop_id = destination.stop_id ∧ 0 < i ∧
      ∃ (j : Nat) (stj : StopTime), j < i ∧ stopTimes[j]? = some stj ∧ stj.stop_id = s

/-- Code-faithful direct reachability: `s` lies strictly before the *first*
occurrence of the destination (found by `findIndex`), which must be at a
positive index. -/
def firstIdxDirectReachable (destination : Stop) (trips : List Trip)
    (stopTimesByTrip : String → Option (List StopTime)) (s : String) : Prop :=
  ∃ trip ∈ trips, ∃ stopTimes : List StopTime,
    stopTimesByTrip trip.trip_id = some stopTimes ∧
    ∃ i : Nat, stopTimes.findIdx? (fun time => time.stop_id == destination.stop_id) = some i ∧
      0 < i ∧
      ∃ (j : Nat) (stj : StopTime), j < i ∧ stopTimes[j]? = some stj ∧ stj.stop_id = s

/-- Code-faithful transfer reachability: `s` lies strictly before a
stop-time whose stop is (first-occurrence) directly reachable. -/
def specTransferReachable (destination : Stop) (trips : List Trip)
    (stopTimesByTrip : String → Option (List StopTime)) (s : String) : Prop :=
  ∃ trip ∈ trips, ∃ stopTimes : List StopTime,
    stopTimesByTrip trip.trip_id = some stopTimes ∧
    ∃ (i : Nat) (sti : StopTime), stopTimes[i]? = some sti ∧
      firstIdxDirectReachable destination trips stopTimesByTrip sti.stop_id ∧
      ∃ (j : Nat) (stj : StopTime), j < i ∧ stopTimes[j]? = some stj ∧ stj.stop_id = s

/-- Trip of the C5 counterexample: the destination `D` is its first stop
and also its last stop, with `X` in between. -/
def trip5 : Trip := ⟨"t5", "r1", "loop5", "5"⟩

/-- Stop-times of `trip5`: `D` (seq 1), `X` (seq 2), `D` (seq 3). -/
def stopTimesT5 : List StopTime :=
  [⟨"t5", "08:00:00", "08:00:00", "D", 1⟩, ⟨"t5", "08:05:00", "08:05:00", "X", 2⟩,
    ⟨"t5", "08:10:00", "08:10:00", "D", 3⟩]

/-- Stop-time index of the C5 counterexample. -/
def stopTimesByTrip5 : String → Option (List StopTime) :=
  mapOf [("t5", stopTimesT5)]

/-- Fixture stop `Y` (transfer stop of the round-trip scenario). -/
def stopY : Stop := ⟨"Y", "cY", "Y Street", 0, 0⟩

/-- Trip from `X` to `Y` of the round-trip scenario. -/
def tripXY : Trip := ⟨"tXY", "r1", "to Y", "xy"⟩

/-- Trip from `Y` to `D` of the round-trip scenario. -/
def tripYD : Trip := ⟨"tYD", "r1", "to D", "yd"⟩

/-- Stop-times of `tripXY`. -/
def stopTimesTXY : List StopTime :=
  [⟨"tXY", "08:00:00", "08:00:00", "X", 1⟩, ⟨"tXY", "08:10:00", "08:10:00", "Y", 2⟩]

/-- Stop-times of `tripYD`. -/
def stopTimesTYD : List StopTime :=
  [⟨"tYD", "08:20:00", "08:20:00", "Y", 1⟩, ⟨"tYD", "08:30:00", "08:30:00", "D", 2⟩]

/-- Stop-time index of the round-trip scenario (`D` is reachable from `X`
only via the transfer at `Y`). -/
def stopTimesByTripXY : String → Option (List StopTime) :=
  mapOf [("tXY", stopTimesTXY), ("tYD", stopTimesTYD)]

/-- C7: for every stop `S` and every time `t`, `plan(S, S, t, ...)` returns
the error outcome with message exactly "Pick two different stops to build a
route."; the result does not depend on the schedule data, the indexes, the
destination coordinate or the distance function, i.e. no candidate
enumeration takes part in it. -/
theorem same_stop_rejection (S : Stop) (nowMinutes : ℚ) (trips : List Trip)
    (stopTimesByTrip : String → Option (List StopTime))
    (stopById : String → Option Stop) (routeById : String → Option Route)
    (destinationLocation : Option Coord) (dist : Stop → Coord → ℚ) :
    planResult S S nowMinutes trips stopTimesByTrip stopById routeById
      destinationLocation dist = .error "Pick two different stops to build a route." := by
  unfold planResult
  simp

/-- C9: the transfer join places no distinct-trip requirement on the two
legs: in the `trip9` scenario the planner returns a transfer itinerary both
of whose legs lie on `trip9`. -/
theorem transfer_legs_can_share_a_trip :
    planResult stopO stopD 0 [trip9] stopTimesByTrip9 stopById9 routeByIdNone
        none dist0 = .transfer c9Plan [] none ∧
      c9Plan.firstLeg.trip = c9Plan.secondLeg.trip := by
  constructor
  · with_unfolding_all decide
  · with_unfolding_all decide

/-- C1: every itinerary produced by the transfer join has
`layoverMinutes = boardTime(leg2) - alightTime(leg1)` and
`totalMinutes = alightTime(leg2) - boardTime(leg1)` in minutes since
midnight and both quantities non-negative (negative pairings are
discarded), and on the spec's example (trip1 `A→T`, trip2 `T→B`)
`plan(A, B, 0, ...)` returns a transfer with layover 10, total 45 and
transfer stop `T`. -/
theorem transfer_join_correctness :
    (∀ (origin destination : Stop) (trips : List Trip)
        (stopTimesByTrip : String → Option (List StopTime))
        (stopById : String → Option Stop) (routeById : String → Option Route)
        (p : TransferPlan),
        p ∈ transferPlansFor origin destination trips stopTimesByTrip stopById routeById →
        p.layoverMinutes =
            timeToMinutes p.secondLeg.boardTime - timeToMinutes p.firstLeg.alightTime ∧
          p.totalMinutes =
            timeToMinutes p.secondLeg.alightTime - timeToMinutes p.firstLeg.boardTime ∧
          0 ≤ p.layoverMinutes ∧ 0 ≤ p.totalMinutes) ∧
      planResult stopA stopB 0 [trip1, trip2] stopTimesByTrip12 stopById12
          routeByIdNone none dist0 = .transfer c1Plan [] none ∧
      c1Plan.layoverMinutes = 10 ∧ c1Plan.totalMinutes = 45 ∧ c1Plan.transferStop = stopT := by
  refine ⟨?_, by with_unfolding_all decide, by with_unfolding_all decide,
    by with_unfolding_all decide, by with_unfolding_all decide⟩
  intro origin destination trips stopTimesByTrip stopById routeById p hp
  simp only [transferPlansFor, List.mem_flatMap] at hp
  obtain ⟨trip, -, hp⟩ := hp
  split at hp
  · simp at hp
  split at hp
  · simp at hp
  split at hp
  · simp at hp
  split at hp
  · simp at hp
  simp only [List.mem_flatMap] at hp
  obtain ⟨alightTime, -, hp⟩ := hp
  split at hp
  · simp at hp
  simp only [List.mem_filterMap] at hp
  obtain ⟨leg2, -, hp⟩ := hp
  split at hp
  · simp at hp
  split at hp
  · simp at hp
  rename_i hlay htot
  obtain rfl := Option.some.inj hp
  refine ⟨rfl, rfl, ?_, ?_⟩
  · simpa [minutesBetween] using not_lt.mp hlay
  · simpa [minutesBetween] using not_lt.mp htot

/-- Witness applying the universally quantified part of
`transfer_join_correctness` to the concrete itinerary of the C1 scenario. -/
theorem transfer_join_correctness_witness :
    c1Plan ∈ transferPlansFor stopA stopB [trip1, trip2] stopTimesByTrip12
        stopById12 routeByIdNone ∧
      0 ≤ c1Plan.layoverMinutes ∧ 0 ≤ c1Plan.totalMinutes :=
  ⟨by with_unfolding_all decide,
    (transfer_join_correctness.1 stopA stopB [trip1, trip2] stopTimesByTrip12
        stopById12 routeByIdNone c1Plan (by with_unfolding_all decide)).2.2⟩

/-- C8: on every well-formed "HH:MM:SS" string (three all-digit
components) the conversion to minutes is exactly
`hours * 60 + minutes + seconds / 60` as a rational number — in particular
no 24-hour wraparound is applied ("25:10:00" maps to 1510, which compares
later than every same-day time such as "23:59:00"), while the display
formatter `formatTime` does wrap the hours with `((h % 24) + 24) % 24`. -/
theorem time_arithmetic_semantics :
    (∀ (value : String) (hs ms ss : List Char),
        splitCols value.data = [hs, ms, ss] →
        hs.all Char.isDigit = true → ms.all Char.isDigit = true →
        ss.all Char.isDigit = true →
        timeToMinutes value =
          (digitsVal hs : ℚ) * 60 + (digitsVal ms : ℚ) + (digitsVal ss : ℚ) / 60) ∧
      timeToMinutes "25:10:00" = 1510 ∧
      timeToMinutes "23:59:00" < timeToMinutes "25:10:00" ∧
      formatTime "25:10:00" = "1:10 AM" := by
  refine ⟨?_, by with_unfolding_all decide, by with_unfolding_all decide,
    by with_unfolding_all decide⟩
  intro value hs ms ss hsplit h1 h2 h3
  simp [timeToMinutes, hsplit, jsNumberOr0, jsNum, h1, h2, h3]

/-- Witness applying `time_arithmetic_semantics` to the concrete string
"08:20:30" (whose seconds component contributes the fraction 30/60). -/
theorem time_arithmetic_semantics_witness :
    splitCols "08:20:30".data = [['0', '8'], ['2', '0'], ['3', '0']] ∧
      timeToMinutes "08:20:30" =
        (digitsVal ['0', '8'] : ℚ) * 60 + (digitsVal ['2', '0'] : ℚ) +
          (digitsVal ['3', '0'] : ℚ) / 60 :=
  ⟨by with_unfolding_all decide,
    time_arithmetic_semantics.1 "08:20:30" ['0', '8'] ['2', '0'] ['3', '0']
      (by with_unfolding_all decide) (by with_unfolding_all decide)
      (by with_unfolding_all decide) (by with_unfolding_all decide)⟩

/-- C10: a colon-separated component that is not a digit string (or a
missing component) is treated as NaN by `Number(...)` and coerced to `0` by
`|| 0`, so the conversion stays total: a malformed hours component
contributes nothing ("xx:30:00" converts to 30 minutes) and the empty
string converts to 0 minutes. -/
theorem malformed_time_components_coerce_to_zero :
    (∀ (value : String) (hs ms ss : List Char),
        splitCols value.data = [hs, ms, ss] →
        hs.all Char.isDigit = false →
        timeToMinutes value =
          (jsNumberOr0 (some ms) : ℚ) + (jsNumberOr0 (some ss) : ℚ) / 60) ∧
      (∀ p : Option (List Char), jsNum p = none → jsNumberOr0 p = 0) ∧
      timeToMinutes "xx:30:00" = 30 ∧
      timeToMinutes "" = 0 := by
  refine ⟨?_, ?_, by with_unfolding_all decide, by with_unfolding_all decide⟩
  · intro value hs ms ss hsplit h1
    simp [timeToMinutes, hsplit, jsNumberOr0, jsNum, h1]
  · intro p hp
    simp [jsNumberOr0, hp]

/-- Witness applying `malformed_time_components_coerce_to_zero` to the
concrete malformed string "xx:30:00". -/
theorem malformed_time_components_witness :
    splitCols "xx:30:00".data = [['x', 'x'], ['3', '0'], ['0', '0']] ∧
      timeToMinutes "xx:30:00" =
        (jsNumberOr0 (some ['3', '0']) : ℚ) +
          (jsNumberOr0 (some ['0', '0']) : ℚ) / 60 :=
  ⟨by with_unfolding_all decide,
    malformed_time_components_coerce_to_zero.1 "xx:30:00" ['x', 'x'] ['3', '0']
      ['0', '0'] (by with_unfolding_all decide) (by with_unfolding_all decide)⟩

/-- Counterexample to C3: on `trip3` a stop-time matching the destination
`D` does exist after the boarding index (index 1 > 0, witnessed by the
`find?` equation), a destination coordinate is supplied, and yet the
produced candidate alights at `X` — chosen by the distance fallback, not by
the exact-match rule — because the first destination match fails the
strictly-after arrival-time guard. -/
theorem proximity_fallback_counterexample :
    stopTimesT3.findIdx? (fun time => time.stop_id == stopO.stop_id) = some 0 ∧
      (stopTimesT3.drop 1).find? (fun time => time.stop_id == stopD.stop_id) =
        some ⟨"t3", "07:59:00", "07:59:00", "D", 2⟩ ∧
      directCandidates stopO stopD [trip3] stopTimesByTrip3 stopById3 routeByIdNone
          (some ⟨0, 0⟩) dist0 = [c3FallbackCand] ∧
      c3FallbackCand.alightStop = stopX ∧ stopX.stop_id ≠ stopD.stop_id := by
  refine ⟨?_, ?_, ?_, ?_, ?_⟩ <;> with_unfolding_all decide

/-- C3 (amended): the distance function is never consulted when no
destination coordinate is supplied, and whenever the FIRST stop-time after
the boarding index that matches the destination has an arrival strictly
after the boarding departure and a resolvable stop id, the candidate is
built from exactly that stop-time — the result does not mention the
destination coordinate or the distance function, so the proximity fallback
is not used on such a trip. -/
theorem proximity_fallback_amended :
    (∀ (origin destination : Stop) (stopById : String → Option Stop)
        (routeById : String → Option Route) (dist dist' : Stop → Coord → ℚ)
        (trip : Trip) (stopTimes : List StopTime),
        directCandidateForTrip origin destination stopById routeById none dist
            trip stopTimes =
          directCandidateForTrip origin destination stopById routeById none dist'
            trip stopTimes) ∧
    (∀ (origin destination : Stop) (stopById : String → Option Stop)
        (routeById : String → Option Route) (destinationLocation : Option Coord)
        (dist : Stop → Coord → ℚ) (trip : Trip) (stopTimes : List StopTime)
        (boardIndex : Nat) (boardTime candidate : StopTime) (alightStop : Stop),
        stopTimes.findIdx? (fun time => time.stop_id == origin.stop_id) = some boardIndex →
        stopTimes[boardIndex]? = some boardTime →
        (stopTimes.drop (boardIndex + 1)).find?
            (fun time => time.stop_id == destination.stop_id) = some candidate →
        timeToMinutes boardTime.departure_time < timeToMinutes candidate.arrival_time →
        stopById candidate.stop_id = some alightStop →
        directCandidateForTrip origin destination stopById routeById
            destinationLocation dist trip stopTimes =
          if candidate.stop_sequence ≤ boardTime.stop_sequence then none
          else
            (stopById boardTime.stop_id).map fun boardStop =>
              { trip := trip, route := routeById trip.route_id, boardStop := boardStop
                alightStop := alightStop, boardTime := boardTime.departure_time
                alightTime := candidate.arrival_time
                boardSequence := boardTime.stop_sequence
                alightSequence := candidate.stop_sequence }) := by
  constructor
  · intro origin destination stopById routeById dist dist' trip stopTimes
    simp only [directCandidateForTrip, pickClosestStopAfterBoard]
  · intro origin destination stopById routeById destinationLocation dist trip stopTimes
      boardIndex boardTime candidate alightStop h1 h2 h3 h4 h5
    simp only [directCandidateForTrip, h1, h2, h3, if_pos h4, h5]
    by_cases hseq : candidate.stop_sequence ≤ boardTime.stop_sequence
    · simp [hseq]
    · cases hb : stopById boardTime.stop_id <;> simp [hseq, hb]

/-- Witness applying `proximity_fallback_amended` to `trip1` with
destination `T`, whose first destination match passes the arrival guard:
the candidate is the exact-match one even though a destination coordinate
is supplied. -/
theorem proximity_fallback_amended_witness :
    timeToMinutes "08:00:00" < timeToMinutes "08:20:00" ∧
      directCandidateForTrip stopA stopT stopById12 routeByIdNone (some ⟨0, 0⟩)
        dist0 trip1 stopTimesT1 = some c3ExactCand :=
  ⟨by with_unfolding_all decide,
    (proximity_fallback_amended.2 stopA stopT stopById12 routeByIdNone
        (some ⟨0, 0⟩) dist0 trip1 stopTimesT1 0
        ⟨"t1", "08:00:00", "08:00:00", "A", 1⟩
        ⟨"t1", "08:20:00", "08:20:00", "T", 2⟩ stopT
        (by with_unfolding_all decide) (by with_unfolding_all decide)
        (by with_unfolding_all decide) (by with_unfolding_all decide)
        (by with_unfolding_all decide)).trans (by with_unfolding_all decide)⟩

/-- List-membership version of `List.take` indexing. -/
lemma mem_take_iff_getElem? {α : Type} {l : List α} {n : Nat} {a : α} :
    a ∈ l.take n ↔ ∃ j, j < n ∧ l[j]? = some a := by
  constructor
  · intro h
    obtain ⟨j, hj, hget⟩ := List.getElem_of_mem h
    have hjn : j < n := lt_of_lt_of_le hj (by simp [List.length_take])
    have h2 : (l.take n)[j]? = some a := List.getElem?_eq_some_iff.mpr ⟨hj, hget⟩
    rw [List.getElem?_take, if_pos hjn] at h2
    exact ⟨j, hjn, h2⟩
  · rintro ⟨j, hjn, hget⟩
    have h2 : (l.take n)[j]? = some a := by rw [List.getElem?_take, if_pos hjn]; exact hget
    obtain ⟨h, hEq⟩ := List.getElem?_eq_some_iff.mp h2
    exact hEq ▸ List.getElem_mem h

/-- Nonempty lists are the lists with a member. -/
lemma ne_nil_iff_exists_mem {α : Type} {l : List α} : l ≠ [] ↔ ∃ a, a ∈ l := by
  cases l with
  | nil => simp
  | cons x xs => simp [List.mem_cons]

/-- Membership reading of `List.contains` on `String` lists. -/
lemma contains_eq_true_iff {l : List String} {a : String} :
    l.contains a = true ↔ a ∈ l := by
  simp [List.contains, List.elem_iff]

/-- Membership characterization of the direct pass. -/
lemma mem_directReachableIds_iff {destination : Stop} {trips : List Trip}
    {stopTimesByTrip : String → Option (List StopTime)} {s : String} :
    s ∈ directReachableIds destination trips stopTimesByTrip ↔
      firstIdxDirectReachable destination trips stopTimesByTrip s := by
  simp only [directReachableIds, List.mem_flatMap, firstIdxDirectReachable]
  constructor
  · rintro ⟨trip, htrip, hmem⟩
    rcases hst : stopTimesByTrip trip.trip_id with - | stopTimes
    · rw [hst] at hmem
      simp at hmem
    rw [hst] at hmem
    dsimp only at hmem
    rcases hfind : stopTimes.findIdx? (fun time => time.stop_id == destination.stop_id)
      with - | destIndex
    · rw [hfind] at hmem
      simp at hmem
    rw [hfind] at hmem
    dsimp only at hmem
    by_cases hne : destIndex = 0
    · rw [if_pos hne] at hmem
      simp at hmem
    rw [if_neg hne] at hmem
    simp only [List.mem_map, mem_take_iff_getElem?] at hmem
    obtain ⟨stj, ⟨j, hj, hget⟩, hsid⟩ := hmem
    exact ⟨trip, htrip, stopTimes, hst, destIndex, hfind,
      Nat.pos_of_ne_zero hne, j, stj, hj, hget, hsid⟩
  · rintro ⟨trip, htrip, stopTimes, hst, i, hfind, hipos, j, stj, hji, hget, hsid⟩
    refine ⟨trip, htrip, ?_⟩
    rw [hst]
    dsimp only
    rw [hfind]
    dsimp only
    rw [if_neg (Nat.pos_iff_ne_zero.mp hipos)]
    exact List.mem_map.mpr ⟨stj, mem_take_iff_getElem?.mpr ⟨j, hji, hget⟩, hsid⟩

/-- Membership characterization of the transfer pass, for an arbitrary
direct set. -/
lemma mem_transferReachableIds_iff {direct : List String} {trips : List Trip}
    {stopTimesByTrip : String → Option (List StopTime)} {s : String} :
    s ∈ transferReachableIds direct trips stopTimesByTrip ↔
      (direct ≠ [] ∧ ∃ trip ∈ trips, ∃ stopTimes : List StopTime,
        stopTimesByTrip trip.trip_id = some stopTimes ∧
        ∃ (i : Nat) (sti : StopTime), stopTimes[i]? = some sti ∧ sti.stop_id ∈ direct ∧
          ∃ (j : Nat) (stj : StopTime), j < i ∧ stopTimes[j]? = some stj ∧
            stj.stop_id = s) := by
  rw [transferReachableIds]
  by_cases hd : direct.isEmpty
  · rw [if_pos hd]
    simp [List.isEmpty_iff.mp hd]
  · rw [if_neg hd]
    have hdne : direct ≠ [] := fun h => by rw [h] at hd; exact hd rfl
    constructor
    · intro hflat
      obtain ⟨trip, htrip, hmem⟩ := List.mem_flatMap.mp hflat
      refine ⟨hdne, ?_⟩
      rcases hst : stopTimesByTrip trip.trip_id with - | stopTimes
      · rw [hst] at hmem
        simp at hmem
      rw [hst] at hmem
      dsimp only at hmem
      simp only [List.mem_flatMap] at hmem
      obtain ⟨⟨i, sti⟩, henum, hmem⟩ := hmem
      rw [List.mem_enum_iff_getElem?] at henum
      dsimp only at hmem
      by_cases hcont : direct.contains sti.stop_id
      · rw [if_pos hcont] at hmem
        simp only [List.mem_map, mem_take_iff_getElem?] at hmem
        obtain ⟨stj, ⟨j, hj, hget⟩, hsid⟩ := hmem
        exact ⟨trip, htrip, stopTimes, hst, i, sti, henum,
          contains_eq_true_iff.mp hcont, j, stj, hj, hget, hsid⟩
      · rw [if_neg hcont] at hmem
        simp at hmem
    · rintro ⟨-, trip, htrip, stopTimes, hst, i, sti, hget, hmemd, j, stj, hji, hgetj, hsid⟩
      refine List.mem_flatMap.mpr ⟨trip, htrip, ?_⟩
      rw [hst]
      dsimp only
      refine List.mem_flatMap.mpr ⟨(i, sti), List.mem_enum_iff_getElem?.mpr hget, ?_⟩
      dsimp only
      rw [if_pos (contains_eq_true_iff.mpr hmemd)]
      exact List.mem_map.mpr ⟨stj, mem_take_iff_getElem?.mpr ⟨j, hji, hgetj⟩, hsid⟩

/-- Counterexample to C5: on the trip `[D, X, D]` the stop `X` lies
strictly before an occurrence of the destination `D` at index 2 > 0, so the
claim's description of the result puts `X` into `eligibleOrigins(D, ...)`;
but the code keys on the *first* occurrence of `D` (index 0) and skips the
trip, returning the empty set. -/
theorem reachability_filter_counterexample :
    specDirectReachable stopD [trip5] stopTimesByTrip5 "X" ∧
      buildEligibleStopIds stopD [trip5] stopTimesByTrip5 = [] := by
  constructor
  · refine ⟨trip5, by simp, stopTimesT5, by with_unfolding_all decide, 2,
      ⟨"t5", "08:10:00", "08:10:00", "D", 3⟩, by with_unfolding_all decide,
      by with_unfolding_all decide, by decide, 1,
      ⟨"t5", "08:05:00", "08:05:00", "X", 2⟩, by decide,
      by with_unfolding_all decide, by with_unfolding_all decide⟩
  · with_unfolding_all decide

/-- C5 (amended): `eligibleOrigins` is the union of the direct-reachable
stops — those strictly before the *first* occurrence of the destination
when that occurrence is at index > 0 — and, when the direct set is
non-empty, the transfer-reachable stops (those strictly before a
direct-reachable stop on some trip); in particular `X`, from which `D` is
reachable only via the transfer at `Y`, is eligible in the round-trip
scenario. -/
theorem reachability_filter_amended :
    (∀ (destination : Stop) (trips : List Trip)
        (stopTimesByTrip : String → Option (List StopTime)) (s : String),
        s ∈ buildEligibleStopIds destination trips stopTimesByTrip ↔
          firstIdxDirectReachable destination trips stopTimesByTrip s ∨
            ((∃ d, firstIdxDirectReachable destination trips stopTimesByTrip d) ∧
              specTransferReachable destination trips stopTimesByTrip s)) ∧
      "X" ∈ buildEligibleStopIds stopD [tripXY, tripYD] stopTimesByTripXY := by
  constructor
  · intro destination trips stopTimesByTrip s
    simp only [buildEligibleStopIds, List.mem_append, mem_directReachableIds_iff,
      mem_transferReachableIds_iff, ne_nil_iff_exists_mem, specTransferReachable]
  · with_unfolding_all decide

/-- Witness applying the characterization of `reachability_filter_amended`
to the round-trip scenario: `X` is eligible because it is transfer-reachable
(via `Y`), and `Y` is directly reachable. -/
theorem reachability_filter_amended_witness :
    firstIdxDirectReachable stopD [tripXY, tripYD] stopTimesByTripXY "Y" ∨
      ((∃ d, firstIdxDirectReachable stopD [tripXY, tripYD] stopTimesByTripXY d) ∧
        specTransferReachable stopD [tripXY, tripYD] stopTimesByTripXY "Y") :=
  (reachability_filter_amended.1 stopD [tripXY, tripYD] stopTimesByTripXY "Y").mp
    (by with_unfolding_all decide)

/-- Sorting a list yields the empty list exactly on the empty list. -/
lemma insertionSort_eq_nil_iff {α : Type} (r : α → α → Prop) [DecidableRel r]
    (l : List α) : List.insertionSort r l = [] ↔ l = [] := by
  constructor
  · intro h
    have hp := List.perm_insertionSort r l
    rw [h] at hp
    exact hp.symm.eq_nil
  · rintro rfl
    rfl

/-- Facts shared by every nonempty suffix selection of the planner: a
sorted sublist of the sorted candidates has a sorted tail, is a
sub-permutation of the unsorted candidates, and (for duplicate-free
candidates) does not repeat its head in its tail. -/
lemma sort_suffix_facts {α : Type} {r : α → α → Prop} [DecidableRel r]
    {l : List α} {x : α} {xs : List α}
    (hsub : (x :: xs).Sublist (List.insertionSort r l))
    (hsorted : (x :: xs).Sorted r) :
    xs.Sorted r ∧ (x :: xs).Subperm l ∧ (l.Nodup → x ∉ xs) := by
  refine ⟨(List.sorted_cons.mp hsorted).2,
    hsub.subperm.trans (List.perm_insertionSort r l).subperm, ?_⟩
  intro hnd
  have hns : (x :: xs).Nodup :=
    hsub.nodup ((List.perm_insertionSort r l).symm.nodup hnd)
  exact (List.nodup_cons.mp hns).1

/-- C2: when direct candidates exist but none is upcoming, the planner
rolls over: it returns a direct result whose `nextTrip` is a candidate
with the overall earliest boarding time, whose alternatives complete the
candidate multiset in ascending boarding-time order, and whose service
note is exactly "No more departures today. Showing the next available
trip."; when an upcoming candidate exists, the earliest upcoming one is
returned with the remaining upcoming candidates as alternatives and no
service note. -/
theorem direct_rollover_selection
    (origin destination : Stop) (nowMinutes : ℚ) (trips : List Trip)
    (stopTimesByTrip : String → Option (List StopTime))
    (stopById : String → Option Stop) (routeById : String → Option Route)
    (destinationLocation : Option Coord) (dist : Stop → Coord → ℚ)
    (hne : origin.stop_id ≠ destination.stop_id)
    (hcand : directCandidates origin destination trips stopTimesByTrip stopById
      routeById destinationLocation dist ≠ []) :
    (upcomingDirect nowMinutes (directCandidates origin destination trips
        stopTimesByTrip stopById routeById destinationLocation dist) = [] →
      ∃ next alts,
        planResult origin destination nowMinutes trips stopTimesByTrip stopById
            routeById destinationLocation dist =
          .direct next alts
            (some "No more departures today. Showing the next available trip.") ∧
        next ∈ directCandidates origin destination trips stopTimesByTrip stopById
          routeById destinationLocation dist ∧
        (∀ c ∈ directCandidates origin destination trips stopTimesByTrip stopById
            routeById destinationLocation dist,
          timeToMinutes next.boardTime ≤ timeToMinutes c.boardTime) ∧
        (next :: alts).Perm (directCandidates origin destination trips
          stopTimesByTrip stopById routeById destinationLocation dist) ∧
        alts.Sorted candLE) ∧
    (upcomingDirect nowMinutes (directCandidates origin destination trips
        stopTimesByTrip stopById routeById destinationLocation dist) ≠ [] →
      ∃ next alts,
        planResult origin destination nowMinutes trips stopTimesByTrip stopById
            routeById destinationLocation dist = .direct next alts none ∧
        next ∈ upcomingDirect nowMinutes (directCandidates origin destination trips
          stopTimesByTrip stopById routeById destinationLocation dist) ∧
        (∀ c ∈ upcomingDirect nowMinutes (directCandidates origin destination trips
            stopTimesByTrip stopById routeById destinationLocation dist),
          timeToMinutes next.boardTime ≤ timeToMinutes c.boardTime) ∧
        (next :: alts).Perm (upcomingDirect nowMinutes (directCandidates origin
          destination trips stopTimesByTrip stopById routeById destinationLocation
          dist)) ∧
        alts.Sorted candLE) := by
  have hperm := List.perm_insertionSort candLE (directCandidates origin destination
    trips stopTimesByTrip stopById routeById destinationLocation dist)
  have hsorted := List.sorted_insertionSort candLE (directCandidates origin
    destination trips stopTimesByTrip stopById routeById destinationLocation dist)
  rcases hs : List.insertionSort candLE (directCandidates origin destination trips
    stopTimesByTrip stopById routeById destinationLocation dist) with - | ⟨first, rest⟩
  · exact absurd ((insertionSort_eq_nil_iff candLE _).mp hs) hcand
  rw [hs] at hperm hsorted
  have hfilterperm : (upcomingDirect nowMinutes (first :: rest)).Perm
      (upcomingDirect nowMinutes (directCandidates origin destination trips
        stopTimesByTrip stopById routeById destinationLocation dist)) :=
    hperm.filter _
  have hplan : planResult origin destination nowMinutes trips stopTimesByTrip
      stopById routeById destinationLocation dist =
      match upcomingDirect nowMinutes (first :: rest) with
      | [] => .direct first rest
          (some "No more departures today. Showing the next available trip.")
      | next :: alts => .direct next alts none := by
    simp only [planResult]
    rw [if_neg hne, hs]
  constructor
  · intro hA
    have hu : upcomingDirect nowMinutes (first :: rest) = [] := by
      rw [hA] at hfilterperm
      exact hfilterperm.eq_nil
    rw [hu] at hplan
    refine ⟨first, rest, hplan, hperm.subset (List.mem_cons_self first rest), ?_, hperm,
      (List.sorted_cons.mp hsorted).2⟩
    intro c hc
    rcases List.mem_cons.mp (hperm.mem_iff.mpr hc) with rfl | hcr
    · exact le_refl _
    · exact (List.sorted_cons.mp hsorted).1 c hcr
  · intro hB
    rcases hu : upcomingDirect nowMinutes (first :: rest) with - | ⟨next, alts⟩
    · rw [hu] at hfilterperm
      exact absurd hfilterperm.symm.eq_nil hB
    rw [hu] at hplan hfilterperm
    have hsortedUp : (next :: alts).Sorted candLE := by
      rw [← hu]
      exact List.Pairwise.filter _ hsorted
    refine ⟨next, alts, hplan, hfilterperm.subset (List.mem_cons_self next alts), ?_,
      hfilterperm, (List.sorted_cons.mp hsortedUp).2⟩
    intro c hc
    rcases List.mem_cons.mp (hfilterperm.mem_iff.mpr hc) with rfl | hcr
    · exact le_refl _
    · exact (List.sorted_cons.mp hsortedUp).1 c hcr

/-- Witness applying `direct_rollover_selection` to the rollover scenario:
at 10:00 (600 minutes) the only `A → T` trip has already departed, so the
planner substitutes it together with the end-of-service note. -/
theorem direct_rollover_selection_witness :
    directCandidates stopA stopT [trip1, trip2] stopTimesByTrip12 stopById12
        routeByIdNone none dist0 ≠ [] ∧
      upcomingDirect 600 (directCandidates stopA stopT [trip1, trip2]
        stopTimesByTrip12 stopById12 routeByIdNone none dist0) = [] ∧
      ∃ next alts,
        planResult stopA stopT 600 [trip1, trip2] stopTimesByTrip12 stopById12
            routeByIdNone none dist0 =
          .direct next alts
            (some "No more departures today. Showing the next available trip.") ∧
        next ∈ directCandidates stopA stopT [trip1, trip2] stopTimesByTrip12
          stopById12 routeByIdNone none dist0 ∧
        (∀ c ∈ directCandidates stopA stopT [trip1, trip2] stopTimesByTrip12
            stopById12 routeByIdNone none dist0,
          timeToMinutes next.boardTime ≤ timeToMinutes c.boardTime) ∧
        (next :: alts).Perm (directCandidates stopA stopT [trip1, trip2]
          stopTimesByTrip12 stopById12 routeByIdNone none dist0) ∧
        alts.Sorted candLE :=
  ⟨by with_unfolding_all decide, by with_unfolding_all decide,
    (direct_rollover_selection stopA stopT 600 [trip1, trip2] stopTimesByTrip12
        stopById12 routeByIdNone none dist0 (by with_unfolding_all decide)
        (by with_unfolding_all decide)).1 (by with_unfolding_all decide)⟩

/-- C6: in every non-error plan, the alternatives are sorted ascending by
boarding time (direct) or by boarding time then total duration (transfer);
the selected head together with the alternatives is a sub-permutation of
the enumerated candidates (each candidate occurrence is used at most once),
and when the enumerated candidates are duplicate-free the selected head
does not reappear among the alternatives. -/
theorem alternatives_sorted_and_distinct
    (origin destination : Stop) (nowMinutes : ℚ) (trips : List Trip)
    (stopTimesByTrip : String → Option (List StopTime))
    (stopById : String → Option Stop) (routeById : String → Option Route)
    (destinationLocation : Option Coord) (dist : Stop → Coord → ℚ) :
    (∀ (next : CandidateTrip) (alts : List CandidateTrip) (note : Option String),
        planResult origin destination nowMinutes trips stopTimesByTrip stopById
            routeById destinationLocation dist = .direct next alts note →
        alts.Sorted candLE ∧
          (next :: alts).Subperm (directCandidates origin destination trips
            stopTimesByTrip stopById routeById destinationLocation dist) ∧
          ((directCandidates origin destination trips stopTimesByTrip stopById
              routeById destinationLocation dist).Nodup → next ∉ alts)) ∧
    (∀ (nextTransfer : TransferPlan) (alts : List TransferPlan)
        (note : Option String),
        planResult origin destination nowMinutes trips stopTimesByTrip stopById
            routeById destinationLocation dist = .transfer nextTransfer alts note →
        alts.Sorted transferLE ∧
          (nextTransfer :: alts).Subperm (transferPlansFor origin destination trips
            stopTimesByTrip stopById routeById) ∧
          ((transferPlansFor origin destination trips stopTimesByTrip stopById
              routeById).Nodup → nextTransfer ∉ alts)) := by
  by_cases hne : origin.stop_id = destination.stop_id
  · have hplan : planResult origin destination nowMinutes trips stopTimesByTrip
        stopById routeById destinationLocation dist =
        .error "Pick two different stops to build a route." := by
      simp only [planResult]
      rw [if_pos hne]
    rw [hplan]
    exact ⟨fun _ _ _ h => PlanResult.noConfusion h,
      fun _ _ _ h => PlanResult.noConfusion h⟩
  · rcases hs : List.insertionSort candLE (directCandidates origin destination trips
        stopTimesByTrip stopById routeById destinationLocation dist)
      with - | ⟨first, rest⟩
    · -- no direct candidate: the transfer search decides the result
      have hplan0 : planResult origin destination nowMinutes trips stopTimesByTrip
          stopById routeById destinationLocation dist =
          (if (transferPlansFor origin destination trips stopTimesByTrip stopById
              routeById).isEmpty then
            PlanResult.error "No trips found between those stops."
          else
            match upcomingTransfers nowMinutes (List.insertionSort transferLE
                (transferPlansFor origin destination trips stopTimesByTrip stopById
                  routeById)) with
            | next :: alts => .transfer next alts none
            | [] =>
              match List.insertionSort transferLE (transferPlansFor origin
                  destination trips stopTimesByTrip stopById routeById) with
              | next :: alts => .transfer next alts
                  (some "No more departures today. Showing the next available trip.")
              | [] => .error "No trips found between those stops.") := by
        simp only [planResult]
        rw [if_neg hne, hs]
      by_cases htp : (transferPlansFor origin destination trips stopTimesByTrip
          stopById routeById).isEmpty
      · rw [if_pos htp] at hplan0
        rw [hplan0]
        exact ⟨fun _ _ _ h => PlanResult.noConfusion h,
          fun _ _ _ h => PlanResult.noConfusion h⟩
      · rw [if_neg htp] at hplan0
        rcases hut : upcomingTransfers nowMinutes (List.insertionSort transferLE
            (transferPlansFor origin destination trips stopTimesByTrip stopById
              routeById)) with - | ⟨nt, nas⟩
        · rw [hut] at hplan0
          rcases hst : List.insertionSort transferLE (transferPlansFor origin
              destination trips stopTimesByTrip stopById routeById)
            with - | ⟨nt, nas⟩
          · rw [hst] at hplan0
            rw [hplan0]
            exact ⟨fun _ _ _ h => PlanResult.noConfusion h,
              fun _ _ _ h => PlanResult.noConfusion h⟩
          · rw [hst] at hplan0
            rw [hplan0]
            refine ⟨fun _ _ _ h => PlanResult.noConfusion h, ?_⟩
            rintro nt' nas' note' heq
            obtain ⟨rfl, rfl, -⟩ := PlanResult.transfer.inj heq
            have hsubl : (nt :: nas).Sublist (List.insertionSort transferLE
                (transferPlansFor origin destination trips stopTimesByTrip stopById
                  routeById)) := by
              rw [hst]
            have hsrt : (nt :: nas).Sorted transferLE := by
              have hall := List.sorted_insertionSort transferLE
                (transferPlansFor origin destination trips stopTimesByTrip stopById
                  routeById)
              rw [hst] at hall
              exact hall
            exact sort_suffix_facts hsubl hsrt
        · rw [hut] at hplan0
          rw [hplan0]
          refine ⟨fun _ _ _ h => PlanResult.noConfusion h, ?_⟩
          rintro nt' nas' note' heq
          obtain ⟨rfl, rfl, -⟩ := PlanResult.transfer.inj heq
          have hsubl : (nt :: nas).Sublist (List.insertionSort transferLE
              (transferPlansFor origin destination trips stopTimesByTrip stopById
                routeById)) := by
            rw [← hut]
            exact List.filter_sublist _
          have hsrt : (nt :: nas).Sorted transferLE := by
            have hall := List.Pairwise.filter
              (fun p => decide (nowMinutes ≤ timeToMinutes p.firstLeg.boardTime))
              (List.sorted_insertionSort transferLE (transferPlansFor origin
                destination trips stopTimesByTrip stopById routeById))
            rw [show List.filter
                (fun p => decide (nowMinutes ≤ timeToMinutes p.firstLeg.boardTime))
                (List.insertionSort transferLE (transferPlansFor origin destination
                  trips stopTimesByTrip stopById routeById)) =
              upcomingTransfers nowMinutes (List.insertionSort transferLE
                (transferPlansFor origin destination trips stopTimesByTrip stopById
                  routeById)) from rfl, hut] at hall
            exact hall
          exact sort_suffix_facts hsubl hsrt
    · -- direct candidates exist: the result is a direct plan
      have hplan0 : planResult origin destination nowMinutes trips stopTimesByTrip
          stopById routeById destinationLocation dist =
          (match upcomingDirect nowMinutes (first :: rest) with
          | [] => .direct first rest
              (some "No more departures today. Showing the next available trip.")
          | next :: alts => .direct next alts none) := by
        simp only [planResult]
        rw [if_neg hne, hs]
      rcases hu : upcomingDirect nowMinutes (first :: rest) with - | ⟨next, alts⟩
      · rw [hu] at hplan0
        rw [hplan0]
        refine ⟨?_, fun _ _ _ h => PlanResult.noConfusion h⟩
        rintro next' alts' note' heq
        obtain ⟨rfl, rfl, -⟩ := PlanResult.direct.inj heq
        have hsubl : (first :: rest).Sublist (List.insertionSort candLE
            (directCandidates origin destination trips stopTimesByTrip stopById
              routeById destinationLocation dist)) := by
          rw [hs]
        have hsrt : (first :: rest).Sorted candLE := by
          have hall := List.sorted_insertionSort candLE (directCandidates origin
            destination trips stopTimesByTrip stopById routeById
            destinationLocation dist)
          rw [hs] at hall
          exact hall
        exact sort_suffix_facts hsubl hsrt
      · rw [hu] at hplan0
        rw [hplan0]
        refine ⟨?_, fun _ _ _ h => PlanResult.noConfusion h⟩
        rintro next' alts' note' heq
        obtain ⟨rfl, rfl, -⟩ := PlanResult.direct.inj heq
        have hsubl : (next :: alts).Sublist (List.insertionSort candLE
            (directCandidates origin destination trips stopTimesByTrip stopById
              routeById destinationLocation dist)) := by
          rw [hs]
          exact hu ▸ List.filter_sublist _
        have hsrt : (next :: alts).Sorted candLE := by
          have := List.Pairwise.filter
            (fun c => decide (nowMinutes ≤ timeToMinutes c.boardTime))
            (hs ▸ List.sorted_insertionSort candLE (directCandidates origin
              destination trips stopTimesByTrip stopById routeById
              destinationLocation dist))
          rw [show List.filter
              (fun c => decide (nowMinutes ≤ timeToMinutes c.boardTime))
              (first :: rest) = upcomingDirect nowMinutes (first :: rest) from rfl,
            hu] at this
          exact this
        exact sort_suffix_facts hsubl hsrt

/-- Witness applying `alternatives_sorted_and_distinct` to the rollover
scenario of the C2 witness, whose plan is a direct result. -/
theorem alternatives_sorted_and_distinct_witness :
    c3ExactCand.alightStop = stopT ∧
      ([] : List CandidateTrip).Sorted candLE ∧
      ([c3ExactCand]).Subperm (directCandidates stopA stopT [trip1, trip2]
        stopTimesByTrip12 stopById12 routeByIdNone none dist0) ∧
      ((directCandidates stopA stopT [trip1, trip2] stopTimesByTrip12 stopById12
          routeByIdNone none dist0).Nodup → c3ExactCand ∉ ([] : List CandidateTrip)) :=
  ⟨by with_unfolding_all decide,
    ((alternatives_sorted_and_distinct stopA stopT 600 [trip1, trip2]
        stopTimesByTrip12 stopById12 routeByIdNone none dist0).1 c3ExactCand []
      (some "No more departures today. Showing the next available trip.")
      (by with_unfolding_all decide)).1,
    ((alternatives_sorted_and_distinct stopA stopT 600 [trip1, trip2]
        stopTimesByTrip12 stopById12 routeByIdNone none dist0).1 c3ExactCand []
      (some "No more departures today. Showing the next available trip.")
      (by with_unfolding_all decide)).2.1,
    ((alternatives_sorted_and_distinct stopA stopT 600 [trip1, trip2]
        stopTimesByTrip12 stopById12 routeByIdNone none dist0).1 c3ExactCand []
      (some "No more departures today. Showing the next available trip.")
      (by with_unfolding_all decide)).2.2⟩

/-- C4: the planner returns an error exactly in two situations — origin and
destination are the same stop (message "Pick two different stops to build a
route."), or they differ but Step 1 enumerates no direct candidate and
Step 3 builds no transfer plan (message "No trips found between those
stops."); there is no other error condition. -/
theorem no_coverage_error
    (origin destination : Stop) (nowMinutes : ℚ) (trips : List Trip)
    (stopTimesByTrip : String → Option (List StopTime))
    (stopById : String → Option Stop) (routeById : String → Option Route)
    (destinationLocation : Option Coord) (dist : Stop → Coord → ℚ)
    (message : String) :
    planResult origin destination nowMinutes trips stopTimesByTrip stopById
        routeById destinationLocation dist = .error message ↔
      (origin.stop_id = destination.stop_id ∧
          message = "Pick two different stops to build a route.") ∨
        (origin.stop_id ≠ destination.stop_id ∧
          directCandidates origin destination trips stopTimesByTrip stopById
            routeById destinationLocation dist = [] ∧
          transferPlansFor origin destination trips stopTimesByTrip stopById
            routeById = [] ∧
          message = "No trips found between those stops.") := by
  by_cases hne : origin.stop_id = destination.stop_id
  · have hplan : planResult origin destination nowMinutes trips stopTimesByTrip
        stopById routeById destinationLocation dist =
        .error "Pick two different stops to build a route." := by
      simp only [planResult]
      rw [if_pos hne]
    rw [hplan]
    constructor
    · intro h
      exact Or.inl ⟨hne, (PlanResult.error.inj h).symm⟩
    · rintro (⟨-, rfl⟩ | ⟨h, -⟩)
      · rfl
      · exact absurd hne h
  · rcases hs : List.insertionSort candLE (directCandidates origin destination trips
        stopTimesByTrip stopById routeById destinationLocation dist)
      with - | ⟨first, rest⟩
    · have hcnil : directCandidates origin destination trips stopTimesByTrip
          stopById routeById destinationLocation dist = [] :=
        (insertionSort_eq_nil_iff candLE _).mp hs
      have hplan0 : planResult origin destination nowMinutes trips stopTimesByTrip
          stopById routeById destinationLocation dist =
          (if (transferPlansFor origin destination trips stopTimesByTrip stopById
              routeById).isEmpty then
            PlanResult.error "No trips found between those stops."
          else
            match upcomingTransfers nowMinutes (List.insertionSort transferLE
                (transferPlansFor origin destination trips stopTimesByTrip stopById
                  routeById)) with
            | next :: alts => .transfer next alts none
            | [] =>
              match List.insertionSort transferLE (transferPlansFor origin
                  destination trips stopTimesByTrip stopById routeById) with
              | next :: alts => .transfer next alts
                  (some "No more departures today. Showing the next available trip.")
              | [] => .error "No trips found between those stops.") := by
        simp only [planResult]
        rw [if_neg hne, hs]
      by_cases htp : (transferPlansFor origin destination trips stopTimesByTrip
          stopById routeById).isEmpty
      · rw [if_pos htp] at hplan0
        rw [hplan0]
        constructor
        · intro h
          exact Or.inr ⟨hne, hcnil, List.isEmpty_iff.mp htp,
            (PlanResult.error.inj h).symm⟩
        · rintro (⟨h, -⟩ | ⟨-, -, -, rfl⟩)
          · exact absurd h hne
          · rfl
      · rw [if_neg htp] at hplan0
        have htpne : transferPlansFor origin destination trips stopTimesByTrip
            stopById routeById ≠ [] := fun h => by
          rw [h] at htp
          exact htp rfl
        rcases hut : upcomingTransfers nowMinutes (List.insertionSort transferLE
            (transferPlansFor origin destination trips stopTimesByTrip stopById
              routeById)) with - | ⟨nt, nas⟩
        · rw [hut] at hplan0
          rcases hst : List.insertionSort transferLE (transferPlansFor origin
              destination trips stopTimesByTrip stopById routeById)
            with - | ⟨nt, nas⟩
          · exact absurd ((insertionSort_eq_nil_iff transferLE _).mp hst) htpne
          · rw [hst] at hplan0
            rw [hplan0]
            constructor
            · intro h
              exact PlanResult.noConfusion h
            · rintro (⟨h, -⟩ | ⟨-, -, h, -⟩)
              · exact absurd h hne
              · exact absurd h htpne
        · rw [hut] at hplan0
          rw [hplan0]
          constructor
          · intro h
            exact PlanResult.noConfusion h
          · rintro (⟨h, -⟩ | ⟨-, -, h, -⟩)
            · exact absurd h hne
            · exact absurd h htpne
    · have hplan0 : planResult origin destination nowMinutes trips stopTimesByTrip
          stopById routeById destinationLocation dist =
          (match upcomingDirect nowMinutes (first :: rest) with
          | [] => .direct first rest
              (some "No more departures today. Showing the next available trip.")
          | next :: alts => .direct next alts none) := by
        simp only [planResult]
        rw [if_neg hne, hs]
      have hcne : directCandidates origin destination trips stopTimesByTrip
          stopById routeById destinationLocation dist ≠ [] := fun h => by
        rw [h] at hs
        exact List.noConfusion hs
      rcases hu : upcomingDirect nowMinutes (first :: rest) with - | ⟨next, alts⟩
      · rw [hu] at hplan0
        rw [hplan0]
        constructor
        · intro h
          exact PlanResult.noConfusion h
        · rintro (⟨h, -⟩ | ⟨-, h, -, -⟩)
          · exact absurd h hne
          · exact absurd h hcne
      · rw [hu] at hplan0
        rw [hplan0]
        constructor
        · intro h
          exact PlanResult.noConfusion h
        · rintro (⟨h, -⟩ | ⟨-, h, -, -⟩)
          · exact absurd h hne
          · exact absurd h hcne

/-- Witness applying `no_coverage_error` to a dataset in which the origin
`A` and destination `D` share no trip and no transfer stop: the planner
reports "No trips found between those stops.". -/
theorem no_coverage_error_witness :
    planResult stopA stopD 0 [trip1, tripYD] stopTimesByTrip12 stopById12
        routeByIdNone none dist0 = .error "No trips found between those stops." :=
  (no_coverage_error stopA stopD 0 [trip1, tripYD] stopTimesByTrip12 stopById12
      routeByIdNone none dist0 "No trips found between those stops.").mpr
    (Or.inr ⟨by with_unfolding_all decide, by with_unfolding_all decide,
      by with_unfolding_all decide, rfl⟩)

end MJTransit
